import Mathlib

/-!
Shallow embedding of the core of `src/classes/molecular.py` (the MMEA
building-block / cage module): the functional-group registry (`FGInfo`),
the structural-unit substitution pipeline (`StructUnit`), the weak-value
construction cache (`Cached`) and the assembled molecule (`Cage`).

External collaborators (the rdkit chemistry toolkit: file parsing,
substructure search, SMILES serialization) are modelled as an explicit
oracle record `RDKit`; every function of this file that the source
implements itself is translated line by line from the source.
-/

/-! ## Python substring test (`needle in haystack` on strings) -/

/-- `charsPref n h` is true when `n` is an initial segment of `h`. -/
def charsPref : List Char → List Char → Bool
  | [], _ => true
  | _ :: _, [] => false
  | a :: as, b :: bs => a == b && charsPref as bs

/-- `charsSub n h` is true when `n` occurs contiguously inside `h`;
this is the semantics of the Python expression `n in h` on strings. -/
def charsSub : List Char → List Char → Bool
  | n, [] => charsPref n []
  | n, h :: hs => charsPref n (h :: hs) || charsSub n hs

/-- Python `needle in haystack` for strings. -/
def strIn (needle haystack : String) : Bool :=
  charsSub needle.toList haystack.toList

/-! ## The functional group registry (`FGInfo`) -/

/-- Embeds the `FGInfo` class: one record per registered functional
group, naming the SMARTS pattern and the target/heavy atomic numbers
and symbols (source lines 97-107). -/
structure FGInfo where
  name : String
  smarts : String
  target_atomic_num : Nat
  heavy_atomic_num : Nat
  target_symbol : String
  heavy_symbol : String
  deriving DecidableEq, Repr

/-- The ordered registry `FGInfo.functional_group_list`
(source lines 109-121). -/
def FGInfo.functional_group_list : List FGInfo :=
  [ ⟨"aldehyde", "C(=O)[H]", 6, 39, "C", "Y"⟩,
    ⟨"carboxylic acid", "C(=O)O[H]", 6, 40, "C", "Zr"⟩,
    ⟨"amide", "C(=O)N([H])[H]", 6, 41, "C", "Nb"⟩,
    ⟨"thioacid", "C(=O)S[H]", 6, 42, "C", "Mo"⟩,
    ⟨"alcohol", "O[H]", 8, 43, "O", "Tc"⟩,
    ⟨"thiol", "[S][H]", 16, 44, "S", "Ru"⟩,
    ⟨"amine", "[N]([H])[H]", 7, 45, "N", "Rh"⟩,
    ⟨"nitroso", "N=O", 7, 46, "N", "Pd"⟩,
    ⟨"boronic acid", "[B](O[H])O[H]", 5, 47, "B", "Ag"⟩ ]

/-- The double bond combination table `FGInfo.double_bond_combs`
(source line 123). -/
def FGInfo.double_bond_combs : List (String × String) :=
  [("Rh", "Y"), ("Nb", "Y"), ("Mb", "Rh")]

/-- Embeds the functional-group resolution performed by
`StructUnit.__init__` (source lines 320-322):
`next((x for x in FGInfo.functional_group_list if x.name in
prist_mol_file), None)`, i.e. the first registry entry whose name is a
substring of the file path, or `none`. -/
def findFuncGroup (prist_mol_file : String) : Option FGInfo :=
  FGInfo.functional_group_list.find? (fun x => strIn x.name prist_mol_file)

/-! ## Generic first-match characterization of `List.find?` -/

theorem find?_none_char {α : Type} (p : α → Bool) :
    ∀ l : List α, l.find? p = none ↔ ∀ x ∈ l, p x = false := by
  intro l
  induction l with
  | nil => simp
  | cons a as ih =>
    by_cases ha : p a
    · simp [List.find?_cons_of_pos _ ha, ha]
    · rw [List.find?_cons_of_neg _ (by simpa using ha)]
      constructor
      · intro h x hx
        rcases List.mem_cons.mp hx with rfl | hx
        · simpa using ha
        · exact (ih.mp h) x hx
      · intro h
        exact ih.mpr (fun x hx => h x (List.mem_cons.mpr (Or.inr hx)))

theorem find?_some_char {α : Type} (p : α → Bool) :
    ∀ (l : List α) (g : α), l.find? p = some g ↔
      ∃ l₁ l₂, l = l₁ ++ g :: l₂ ∧ p g = true ∧ ∀ x ∈ l₁, p x = false := by
  intro l
  induction l with
  | nil => intro g; simp
  | cons a as ih =>
    intro g
    by_cases ha : p a
    · constructor
      · intro h
        have : a = g := by
          simpa [List.find?_cons_of_pos _ ha] using h
        subst this
        exact ⟨[], as, rfl, ha, by simp⟩
      · rintro ⟨l₁, l₂, heq, hg, hfirst⟩
        cases l₁ with
        | nil =>
          simp only [List.nil_append, List.cons.injEq] at heq
          rw [List.find?_cons_of_pos _ ha, heq.1]
        | cons b bs =>
          simp only [List.cons_append, List.cons.injEq] at heq
          have : p a = false := heq.1 ▸ hfirst b (List.mem_cons_self b bs)
          simp [this] at ha
    · have ha' : p a = false := by simpa using ha
      constructor
      · intro h
        have h' : as.find? p = some g := by
          simpa [List.find?_cons_of_neg _ ha] using h
        rcases (ih g).mp h' with ⟨l₁, l₂, heq, hg, hfirst⟩
        refine ⟨a :: l₁, l₂, by simp [heq], hg, ?_⟩
        intro x hx
        rcases List.mem_cons.mp hx with rfl | hx
        · exact ha'
        · exact hfirst x hx
      · rintro ⟨l₁, l₂, heq, hg, hfirst⟩
        cases l₁ with
        | nil =>
          simp only [List.nil_append, List.cons.injEq] at heq
          rw [heq.1] at ha'
          simp [hg] at ha'
        | cons b bs =>
          simp only [List.cons_append, List.cons.injEq] at heq
          have has : as.find? p = some g :=
            (ih g).mpr ⟨bs, l₂, heq.2, hg,
              fun x hx => hfirst x (List.mem_cons.mpr (Or.inr hx))⟩
          rw [List.find?_cons_of_neg _ ha]
          exact has

/-- C7: functional-group resolution returns the first entry of the
ordered registry whose name is a substring of the identifier (registry
order as tie-break), and returns none when no entry's name occurs in
the identifier. -/
theorem findFuncGroup_first_match (id : String) :
    (∀ g : FGInfo, findFuncGroup id = some g ↔
      ∃ l₁ l₂, FGInfo.functional_group_list = l₁ ++ g :: l₂ ∧
        strIn g.name id = true ∧ ∀ x ∈ l₁, strIn x.name id = false) ∧
    (findFuncGroup id = none ↔
      ∀ g ∈ FGInfo.functional_group_list, strIn g.name id = false) := by
  constructor
  · intro g
    exact find?_some_char (fun x => strIn x.name id)
      FGInfo.functional_group_list g
  · exact find?_none_char (fun x => strIn x.name id)
      FGInfo.functional_group_list

/-! ## List helper lemmas -/

theorem getD_set_self {α : Type} (l : List α) (i : Nat) (v d : α)
    (h : i < l.length) : (l.set i v).getD i d = v := by
  simp [List.getD_eq_getElem?_getD, List.getElem?_set_self h]

theorem getD_set_ne {α : Type} (l : List α) (i j : Nat) (v d : α)
    (h : i ≠ j) : (l.set i v).getD j d = l.getD j d := by
  simp [List.getD_eq_getElem?_getD, List.getElem?_set_ne h]

theorem set_getD_self {α : Type} (l : List α) (i : Nat) (d : α) :
    l.set i (l.getD i d) = l := by
  by_cases h : i < l.length
  · apply List.ext_getElem?
    intro j
    by_cases hij : i = j
    · subst hij
      rw [List.getElem?_set_self h]
      simp [List.getD_eq_getElem?_getD, List.getElem?_eq_getElem h]
    · exact List.getElem?_set_ne hij
  · exact List.set_eq_of_length_le (Nat.le_of_not_lt h)

/-! ## The molecule value model -/

/-- A 3-D atomic position, as stored in an rdkit conformer. -/
abbrev Point : Type := ℚ × ℚ × ℚ

/-- Value model of an `rdkit.Chem.rdchem.Mol` as used by this module:
the per-atom atomic numbers (indexed by rdkit atom id), the bond table
(pairs of atom ids) and the single conformer's per-atom coordinates. -/
structure Mol where
  atoms : List Nat
  bonds : List (Nat × Nat)
  conf : List Point
  deriving DecidableEq, Repr

/-- The external rdkit operations the module calls, as an oracle: the
module treats them as opaque deterministic functions of their
arguments.  `molFromMolFile` is `chem.MolFromMolFile` (with
`sanitize=False, removeHs=False`), `molToSmiles` is `chem.MolToSmiles`
(with the fixed keyword options of the source), and `substructMatches`
is `chem.MolFromSmarts` composed with `GetSubstructMatches`. -/
structure RDKit where
  molFromMolFile : String → Mol
  molToSmiles : Mol → String
  substructMatches : Mol → String → List (List Nat)

/-- `flatten`, from the `convenience_functions` module: yields every
atom id of a nested container in order, never a container (modelled on
the shape actually produced here, a sequence of match groups, as
documented by the comments at source lines 366-381). -/
def flatten (l : List (List Nat)) : List Nat := l.flatten

/-- Model of `os.path.splitext` for the file names used by this
module: splits a name at its final dot, the extension keeping the dot,
and returns the pair (root, extension); a name with no dot has an
empty extension. -/
def splitext (s : String) : String × String :=
  let rev := s.toList.reverse
  let after := rev.takeWhile (fun c => c != '.')
  if after.length = rev.length then (s, "")
  else (String.mk (rev.drop (after.length + 1)).reverse,
        String.mk ('.' :: after.reverse))

/-! ## StructUnit -/

/-- The attribute record of a `StructUnit` instance (source lines
289-327).  Attributes that the initializer only sets indirectly,
through `_generate_heavy_attrs`, are `Option`s: `none` means the
attribute has not been set on the Python object. -/
structure StructUnit where
  prist_mol_file : String
  prist_mol : Mol
  prist_smiles : String
  func_grp : Option FGInfo
  heavy_mol : Option Mol
  heavy_mol_file : Option String
  heavy_smiles : Option String
  deriving DecidableEq, Repr

/-- Embeds `StructUnit.find_functional_group_atoms` (source lines
414-445): builds the query molecule from `self.func_grp.smarts` and
runs the substructure search against `prist_mol`.  When `func_grp` is
`None`, the very first step `chem.MolFromSmarts(self.func_grp.smarts)`
raises `AttributeError`, which the `Except` models. -/
def StructUnit.find_functional_group_atoms (self : StructUnit)
    (rd : RDKit) : Except String (List (List Nat)) :=
  match self.func_grp with
  | none => .error "AttributeError: NoneType object has no attribute smarts"
  | some g => .ok (rd.substructMatches self.prist_mol g.smarts)

/-- The substitution loop of `_generate_heavy_attrs` (source lines
393-396): for each atom id, if the atom currently has the target
atomic number, set its atomic number to the heavy one.  Reading an
id that is out of range is modelled by the default 0 (rdkit ids
returned by the substructure search are always in range). -/
def substituteAtoms (target heavy : Nat) :
    List Nat → List Nat → List Nat
  | atoms, [] => atoms
  | atoms, atom_id :: rest =>
      substituteAtoms target heavy
        (if atoms.getD atom_id 0 == target
         then atoms.set atom_id heavy else atoms) rest

/-- The heavy `.mol` file name of `_generate_heavy_attrs` (source
lines 401-404): splitext the pristine name, insert `HEAVY` and the
functional group name, and rejoin with underscores. -/
def heavyMolFileName (prist_mol_file gname : String) : String :=
  let se := splitext prist_mol_file
  String.intercalate "_" [se.1, "HEAVY", gname, se.2]

/-- Embeds `StructUnit._generate_heavy_attrs` (source lines 329-412):
deep-copy the pristine molecule, substitute every matched
functional-group atom that carries the target atomic number with the
heavy atomic number, derive the heavy file name, write the file
(external side effect, not part of the state) and record the heavy
SMILES.  When `func_grp` is `None` the call to
`find_functional_group_atoms` raises `AttributeError` (and the loop
reading `target_atomic_num` would as well, modelled by the second
error branch, which is unreachable). -/
def StructUnit.generate_heavy_attrs (self : StructUnit) (rd : RDKit) :
    Except String StructUnit := do
  let matchGroups ← self.find_functional_group_atoms rd
  match self.func_grp with
  | none =>
      .error "AttributeError: NoneType object has no attribute target_atomic_num"
  | some g =>
      let heavyAtoms := substituteAtoms g.target_atomic_num
        g.heavy_atomic_num self.prist_mol.atoms (flatten matchGroups)
      let hm : Mol := { atoms := heavyAtoms,
                        bonds := self.prist_mol.bonds,
                        conf := self.prist_mol.conf }
      let hf := heavyMolFileName self.prist_mol_file g.name
      .ok { self with heavy_mol := some hm,
                      heavy_mol_file := some hf,
                      heavy_smiles := some (rd.molToSmiles hm) }

/-- Embeds `StructUnit.__init__` (source lines 289-327): parse the
pristine molecule, record its SMILES, resolve the functional group by
first substring match over the registry, and run
`_generate_heavy_attrs`. -/
def StructUnit.init (rd : RDKit) (prist_mol_file : String) :
    Except String StructUnit :=
  let prist_mol := rd.molFromMolFile prist_mol_file
  let prist_smiles := rd.molToSmiles prist_mol
  let func_grp := findFuncGroup prist_mol_file
  let self : StructUnit :=
    ⟨prist_mol_file, prist_mol, prist_smiles, func_grp, none, none, none⟩
  self.generate_heavy_attrs rd

/-- The per-atom coordinates of a molecule in atom-index order, read
from the conformer exactly as `get_heavy_coords` reads them:
`conformer.GetAtomPosition(atom.GetIdx())` for each atom. -/
def molCoords (m : Mol) : List Point :=
  (List.range m.atoms.length).map (fun i => m.conf.getD i (0, 0, 0))

/-- Embeds `StructUnit.get_heavy_coords` (source lines 534-562):
yields each atom's position from the conformer of `heavy_mol` in
atom-index order. -/
def StructUnit.get_heavy_coords (self : StructUnit) :
    Except String (List Point) :=
  match self.heavy_mol with
  | none =>
      .error "AttributeError: NoneType object has no attribute GetConformer"
  | some hm => .ok (molCoords hm)

/-- The shift loop of `shift_heavy_mol` (source lines 500-522): for
each atom id, read the atom's position from the working conformer and
set it to the position translated by `(x, y, z)`. -/
def shiftConf (x y z : ℚ) : List Point → List Nat → List Point
  | conformer, [] => conformer
  | conformer, atom_id :: rest =>
      let atom_position := conformer.getD atom_id (0, 0, 0)
      shiftConf x y z
        (conformer.set atom_id
          (atom_position.1 + x, atom_position.2.1 + y, atom_position.2.2 + z))
        rest

/-- Embeds `StructUnit.shift_heavy_mol` (source lines 447-532): copy
the conformer of `heavy_mol`, shift every atom position by
`(x, y, z)` in the copy, deep-copy `heavy_mol`, replace the copy's
conformers with the shifted one and return it.  The second component
of the result is the state of `self` after the call: the source only
writes to the two copies, so the unit itself is returned unchanged. -/
def StructUnit.shift_heavy_mol (self : StructUnit) (x y z : ℚ) :
    Except String (Mol × StructUnit) :=
  match self.heavy_mol with
  | none =>
      .error "AttributeError: NoneType object has no attribute GetConformer"
  | some hm =>
      let conformer := hm.conf
      let conformer := shiftConf x y z conformer (List.range hm.atoms.length)
      let new_heavy : Mol := { hm with conf := conformer }
      .ok (new_heavy, self)

/-! ## Reduction lemmas for `generate_heavy_attrs` -/

theorem generate_heavy_attrs_of_none (self : StructUnit) (rd : RDKit)
    (hg : self.func_grp = none) :
    self.generate_heavy_attrs rd =
      .error "AttributeError: NoneType object has no attribute smarts" := by
  simp [StructUnit.generate_heavy_attrs, StructUnit.find_functional_group_atoms,
    hg, Bind.bind, Except.bind]

theorem generate_heavy_attrs_of_some (self : StructUnit) (rd : RDKit)
    (g : FGInfo) (hg : self.func_grp = some g) :
    self.generate_heavy_attrs rd =
      .ok { self with
        heavy_mol := some
          { atoms := substituteAtoms g.target_atomic_num g.heavy_atomic_num
              self.prist_mol.atoms
              (flatten (rd.substructMatches self.prist_mol g.smarts)),
            bonds := self.prist_mol.bonds,
            conf := self.prist_mol.conf },
        heavy_mol_file := some (heavyMolFileName self.prist_mol_file g.name),
        heavy_smiles := some (rd.molToSmiles
          { atoms := substituteAtoms g.target_atomic_num g.heavy_atomic_num
              self.prist_mol.atoms
              (flatten (rd.substructMatches self.prist_mol g.smarts)),
            bonds := self.prist_mol.bonds,
            conf := self.prist_mol.conf }) } := by
  simp [StructUnit.generate_heavy_attrs, StructUnit.find_functional_group_atoms,
    hg, Bind.bind, Except.bind]

/-! ## Characterization of the substitution loop -/

theorem substituteAtoms_length (target heavy : Nat) :
    ∀ (ids w : List Nat),
      (substituteAtoms target heavy w ids).length = w.length := by
  intro ids
  induction ids with
  | nil => intro w; rfl
  | cons i rest ih =>
    intro w
    show (substituteAtoms target heavy
      (if w.getD i 0 == target then w.set i heavy else w) rest).length = _
    rw [ih]
    split <;> simp [List.length_set]

theorem substituteAtoms_getD (target heavy : Nat) :
    ∀ (ids w : List Nat) (j : Nat), j < w.length →
      (substituteAtoms target heavy w ids).getD j 0 =
        if j ∈ ids ∧ w.getD j 0 = target then heavy else w.getD j 0 := by
  intro ids
  induction ids with
  | nil =>
    intro w j hj
    simp [substituteAtoms]
  | cons i rest ih =>
    intro w j hj
    show (substituteAtoms target heavy
      (if w.getD i 0 == target then w.set i heavy else w) rest).getD j 0 = _
    by_cases hij : j = i
    · subst hij
      by_cases ht : w.getD j 0 = target
      · rw [if_pos (by simpa using ht)]
        rw [ih (w.set j heavy) j (by simpa [List.length_set] using hj)]
        rw [getD_set_self w j heavy 0 hj, ite_self]
        rw [if_pos ⟨List.mem_cons_self _ _, ht⟩]
      · rw [if_neg (by simpa using ht)]
        rw [ih w j hj]
        rw [if_neg (fun hc => ht hc.2)]
        rw [if_neg (fun hc => ht hc.2)]
    · have hji : j ∈ (i :: rest) ↔ j ∈ rest := by
        simp [List.mem_cons, hij]
      by_cases hcond : w.getD i 0 == target
      · rw [if_pos hcond]
        rw [ih (w.set i heavy) j (by simpa [List.length_set] using hj)]
        rw [getD_set_ne w i j heavy 0 (fun h => hij h.symm)]
        by_cases hc : j ∈ rest ∧ w.getD j 0 = target
        · rw [if_pos hc, if_pos ⟨hji.mpr hc.1, hc.2⟩]
        · rw [if_neg hc, if_neg (fun hc2 => hc ⟨hji.mp hc2.1, hc2.2⟩)]
      · rw [if_neg hcond]
        rw [ih w j hj]
        by_cases hc : j ∈ rest ∧ w.getD j 0 = target
        · rw [if_pos hc, if_pos ⟨hji.mpr hc.1, hc.2⟩]
        · rw [if_neg hc, if_neg (fun hc2 => hc ⟨hji.mp hc2.1, hc2.2⟩)]

theorem substituteAtoms_eq_map (target heavy : Nat) (w ids : List Nat) :
    substituteAtoms target heavy w ids =
      (List.range w.length).map
        (fun j => if j ∈ ids ∧ w.getD j 0 = target then heavy
                  else w.getD j 0) := by
  apply List.ext_getElem
  · simp [substituteAtoms_length]
  · intro j h1 h2
    have hjw : j < w.length := by
      simpa [substituteAtoms_length] using h1
    have hD := substituteAtoms_getD target heavy ids w j hjw
    have hL : (substituteAtoms target heavy w ids).getD j 0 =
        (substituteAtoms target heavy w ids)[j] := by
      rw [List.getD_eq_getElem?_getD, List.getElem?_eq_getElem h1]
      rfl
    rw [← hL, hD]
    simp

/-! ## Concrete witness data -/

/-- A trivial oracle: used where the external chemistry is never
reached. -/
def cexRD : RDKit := ⟨fun _ => ⟨[], [], []⟩, fun _ => "", fun _ _ => []⟩

/-- `Except.ok`-ness, as a Boolean. -/
def isOkE (e : Except String StructUnit) : Bool :=
  match e with
  | .ok _ => true
  | .error _ => false

/-- A four-atom amine-like molecule: N H H C with one conformer. -/
def amineMol : Mol :=
  ⟨[7, 1, 1, 6], [(0, 1), (0, 2), (0, 3)],
   [(0, 0, 0), (1, 0, 0), (0, 1, 0), (0, 0, 1)]⟩

/-- The registry entry for the amine group. -/
def amineFG : FGInfo := ⟨"amine", "[N]([H])[H]", 7, 45, "N", "Rh"⟩

/-- An oracle whose parser always yields `amineMol` and whose
substructure search matches atoms 0, 1, 2. -/
def wRD : RDKit := ⟨fun _ => amineMol, fun _ => "NH2", fun _ _ => [[0, 1, 2]]⟩

/-- A source path carrying the name of the amine group. -/
def wFile : String := "data/amine/unit.mol"

/-- The heavy molecule derived from `amineMol` under the amine group:
the nitrogen (target 7) is replaced by rhodium (heavy 45). -/
def wHM : Mol :=
  ⟨[45, 1, 1, 6], [(0, 1), (0, 2), (0, 3)],
   [(0, 0, 0), (1, 0, 0), (0, 1, 0), (0, 0, 1)]⟩

/-- The `StructUnit` state right before `_generate_heavy_attrs`. -/
def wUnit0 : StructUnit :=
  ⟨wFile, amineMol, "NH2", some amineFG, none, none, none⟩

/-- The fully initialized `StructUnit` for `wFile` under `wRD`. -/
def wUnit1 : StructUnit :=
  ⟨wFile, amineMol, "NH2", some amineFG, some wHM,
   some "data/amine/unit_HEAVY_amine_.mol", some "NH2"⟩

/-! ## C2 -/

/-- C2 (amended): for every source identifier containing no registry
entry's name, StructUnit construction does not succeed non-fatally: it
raises `AttributeError` when `find_functional_group_atoms`
dereferences `smarts` on the absent (`None`) functional group, so no
unit with `func_grp = none` and a raw-equal heavy structure is ever
produced. -/
theorem structunit_no_group_raises (rd : RDKit) (file : String)
    (hno : ∀ g ∈ FGInfo.functional_group_list, strIn g.name file = false) :
    StructUnit.init rd file =
      .error "AttributeError: NoneType object has no attribute smarts" := by
  have hfind : findFuncGroup file = none := by
    unfold findFuncGroup
    exact (find?_none_char (fun x => strIn x.name file)
      FGInfo.functional_group_list).mpr hno
  exact generate_heavy_attrs_of_none
    ⟨file, rd.molFromMolFile file, rd.molToSmiles (rd.molFromMolFile file),
      findFuncGroup file, none, none, none⟩ rd hfind

/-- C2 witness: the identifier `unit_1.mol` contains no registry
entry's name and construction raises. -/
theorem structunit_no_group_raises_witness :
    (∀ g ∈ FGInfo.functional_group_list, strIn g.name "unit_1.mol" = false) ∧
    StructUnit.init cexRD "unit_1.mol" =
      .error "AttributeError: NoneType object has no attribute smarts" :=
  ⟨by decide, structunit_no_group_raises cexRD "unit_1.mol" (by decide)⟩

/-- C2 counterexample to the claim as stated: for the identifier
`unit_1.mol`, which contains no registry entry's name, construction
does not succeed: it raises instead of proceeding with
`functionalGroup = none`. -/
theorem structunit_no_group_cex :
    (∀ g ∈ FGInfo.functional_group_list, strIn g.name "unit_1.mol" = false) ∧
    isOkE (StructUnit.init cexRD "unit_1.mol") = false :=
  ⟨by decide, rfl⟩

/-! ## C3 -/

/-- C3: for a StructUnit with matched functional group `g`, every atom
id of the flattened substructure matches whose (pristine) element is
the target atomic number carries the heavy atomic number in the heavy
structure, every other atom keeps its element, and atom and bond
counts agree between the raw and heavy structures. -/
theorem structunit_heavy_substitution (rd : RDKit) (file : String)
    (u : StructUnit) (g : FGInfo) (hm : Mol)
    (hinit : StructUnit.init rd file = .ok u)
    (hg : u.func_grp = some g)
    (hhm : u.heavy_mol = some hm) :
    hm.atoms = (List.range u.prist_mol.atoms.length).map
        (fun j =>
          if j ∈ flatten (rd.substructMatches u.prist_mol g.smarts) ∧
             u.prist_mol.atoms.getD j 0 = g.target_atomic_num
          then g.heavy_atomic_num else u.prist_mol.atoms.getD j 0) ∧
    hm.atoms.length = u.prist_mol.atoms.length ∧
    hm.bonds.length = u.prist_mol.bonds.length := by
  have hinit' : StructUnit.generate_heavy_attrs
      ⟨file, rd.molFromMolFile file, rd.molToSmiles (rd.molFromMolFile file),
        findFuncGroup file, none, none, none⟩ rd = Except.ok u := hinit
  cases hfg : findFuncGroup file with
  | none =>
    rw [generate_heavy_attrs_of_none _ rd hfg] at hinit'
    cases hinit'
  | some g0 =>
    rw [generate_heavy_attrs_of_some _ rd g0 hfg] at hinit'
    injection hinit' with hu
    subst hu
    dsimp only at hg hhm ⊢
    rw [hfg] at hg
    injection hg with hg
    subst hg
    injection hhm with hhm
    subst hhm
    dsimp only
    refine ⟨substituteAtoms_eq_map _ _ _ _, ?_, rfl⟩
    exact substituteAtoms_length _ _ _ _

/-- C3 witness: the concrete amine unit. -/
theorem structunit_heavy_substitution_witness :
    StructUnit.init wRD wFile = Except.ok wUnit1 ∧
    (wHM.atoms = (List.range wUnit1.prist_mol.atoms.length).map
        (fun j =>
          if j ∈ flatten (wRD.substructMatches wUnit1.prist_mol amineFG.smarts) ∧
             wUnit1.prist_mol.atoms.getD j 0 = amineFG.target_atomic_num
          then amineFG.heavy_atomic_num else wUnit1.prist_mol.atoms.getD j 0) ∧
     wHM.atoms.length = wUnit1.prist_mol.atoms.length ∧
     wHM.bonds.length = wUnit1.prist_mol.bonds.length) :=
  ⟨rfl, structunit_heavy_substitution wRD wFile wUnit1 amineFG wHM rfl rfl rfl⟩

/-! ## C4 -/

/-- C4: the substitution pass is deterministic and idempotent: run a
second time on an already substituted unit (whose pristine structure
is equal to the first run's input), it recomputes a heavy structure
with identical atom elements, bond table and coordinates, and in fact
an identical unit state. -/
theorem generate_heavy_attrs_idempotent (rd : RDKit) (u u₁ u₂ : StructUnit)
    (h1 : u.generate_heavy_attrs rd = .ok u₁)
    (h2 : u₁.generate_heavy_attrs rd = .ok u₂) :
    u₂.heavy_mol = u₁.heavy_mol ∧ u₂.heavy_mol_file = u₁.heavy_mol_file ∧
    u₂.heavy_smiles = u₁.heavy_smiles ∧ u₂ = u₁ := by
  cases hfg : u.func_grp with
  | none =>
    rw [generate_heavy_attrs_of_none u rd hfg] at h1
    cases h1
  | some g =>
    rw [generate_heavy_attrs_of_some u rd g hfg] at h1
    injection h1 with h1
    subst h1
    rw [generate_heavy_attrs_of_some _ rd g (by simpa using hfg)] at h2
    injection h2 with h2
    subst h2
    exact ⟨rfl, rfl, rfl, rfl⟩

/-- C4 witness: two runs on the concrete amine unit. -/
theorem generate_heavy_attrs_idempotent_witness :
    wUnit0.generate_heavy_attrs wRD = Except.ok wUnit1 ∧
    wUnit1.generate_heavy_attrs wRD = Except.ok wUnit1 ∧
    (wUnit1.heavy_mol = wUnit1.heavy_mol ∧
     wUnit1.heavy_mol_file = wUnit1.heavy_mol_file ∧
     wUnit1.heavy_smiles = wUnit1.heavy_smiles ∧ wUnit1 = wUnit1) :=
  ⟨rfl, rfl,
    generate_heavy_attrs_idempotent wRD wUnit0 wUnit1 wUnit1 rfl rfl⟩

/-- Decidable equality for `Except`, for concrete evaluation. -/
instance {e a : Type} [DecidableEq e] [DecidableEq a] :
    DecidableEq (Except e a)
  | .ok x, .ok y =>
    if h : x = y then .isTrue (by rw [h]) else
      .isFalse (fun hh => h (by injection hh))
  | .ok _, .error _ => .isFalse (fun hh => Except.noConfusion hh)
  | .error _, .ok _ => .isFalse (fun hh => Except.noConfusion hh)
  | .error d, .error f =>
    if h : d = f then .isTrue (by rw [h]) else
      .isFalse (fun hh => h (by injection hh))

/-! ## C8 -/

theorem shiftConf_zero (c : List Point) :
    ∀ ids : List Nat, shiftConf 0 0 0 c ids = c := by
  intro ids
  induction ids generalizing c with
  | nil => rfl
  | cons i rest ih =>
    show shiftConf 0 0 0 (c.set i _) rest = c
    have hp : ((c.getD i (0, 0, 0)).1 + 0, (c.getD i (0, 0, 0)).2.1 + 0,
        (c.getD i (0, 0, 0)).2.2 + 0) = c.getD i (0, 0, 0) := by
      simp
    rw [hp, set_getD_self, ih]

/-- C8: shifting the heavy structure by `(0, 0, 0)` yields a structure
whose per-atom coordinates, in atom-index order, equal the sequence
yielded by `get_heavy_coords` (identity shift). -/
theorem shift_heavy_mol_zero (u : StructUnit) (m : Mol) (u' : StructUnit)
    (cs : List Point)
    (hshift : u.shift_heavy_mol 0 0 0 = .ok (m, u'))
    (hcoords : u.get_heavy_coords = .ok cs) :
    molCoords m = cs := by
  cases hhm : u.heavy_mol with
  | none =>
    rw [StructUnit.shift_heavy_mol, hhm] at hshift
    cases hshift
  | some hm =>
    rw [StructUnit.shift_heavy_mol, hhm] at hshift
    rw [StructUnit.get_heavy_coords, hhm] at hcoords
    injection hshift with hok
    injection hok with hm1 hu1
    injection hcoords with hcs
    subst hm1
    subst hcs
    show molCoords
      { atoms := hm.atoms, bonds := hm.bonds,
        conf := (shiftConf 0 0 0 hm.conf (List.range hm.atoms.length)) } =
      molCoords hm
    rw [shiftConf_zero]

/-- C8 witness: the identity shift on the concrete amine unit. -/
theorem shift_heavy_mol_zero_witness :
    wUnit1.shift_heavy_mol 0 0 0 = Except.ok (wHM, wUnit1) ∧
    wUnit1.get_heavy_coords =
      Except.ok [(0, 0, 0), (1, 0, 0), (0, 1, 0), (0, 0, 1)] ∧
    molCoords wHM = [(0, 0, 0), (1, 0, 0), (0, 1, 0), (0, 0, 1)] := by
  have h1 : wUnit1.shift_heavy_mol 0 0 0 = Except.ok (wHM, wUnit1) := by
    norm_num [StructUnit.shift_heavy_mol, wUnit1, wHM, shiftConf,
      List.range_succ]
  have h2 : wUnit1.get_heavy_coords =
      Except.ok [(0, 0, 0), (1, 0, 0), (0, 1, 0), (0, 0, 1)] := by
    norm_num [StructUnit.get_heavy_coords, wUnit1, wHM, molCoords,
      List.range_succ]
  exact ⟨h1, h2, shift_heavy_mol_zero wUnit1 wHM wUnit1 _ h1 h2⟩

/-! ## C9 -/

/-- C9: `shift_heavy_mol` leaves the unit completely unchanged (the
state handed back by the call equals the state before it, in every
attribute), and a second call with equal arguments produces a
structure with value-equal coordinates: in fact an equal structure. -/
theorem shift_heavy_mol_frame (u : StructUnit) (x y z : ℚ)
    (b c : Mol) (u₁ u₂ : StructUnit)
    (h1 : u.shift_heavy_mol x y z = .ok (b, u₁))
    (h2 : u₁.shift_heavy_mol x y z = .ok (c, u₂)) :
    u₁ = u ∧ u₂ = u ∧ c = b ∧ molCoords c = molCoords b := by
  cases hhm : u.heavy_mol with
  | none =>
    rw [StructUnit.shift_heavy_mol, hhm] at h1
    cases h1
  | some hm =>
    rw [StructUnit.shift_heavy_mol, hhm] at h1
    injection h1 with hok
    injection hok with hb hu1
    subst hb
    have hu1' : u₁ = u := hu1.symm
    subst hu1'
    rw [StructUnit.shift_heavy_mol, hhm] at h2
    injection h2 with hok2
    injection hok2 with hc hu2
    subst hc
    exact ⟨rfl, hu2.symm, rfl, rfl⟩

/-- The concrete result of shifting `wHM` by `(1, 2, 3)`. -/
def wShifted : Mol :=
  ⟨[45, 1, 1, 6], [(0, 1), (0, 2), (0, 3)],
   [(1, 2, 3), (2, 2, 3), (1, 3, 3), (1, 2, 4)]⟩

/-- C9 witness: the concrete amine unit shifted twice by `(1, 2, 3)`. -/
theorem shift_heavy_mol_frame_witness :
    wUnit1.shift_heavy_mol 1 2 3 = Except.ok (wShifted, wUnit1) ∧
    (wUnit1 = wUnit1 ∧ wUnit1 = wUnit1 ∧ wShifted = wShifted ∧
      molCoords wShifted = molCoords wShifted) := by
  have h1 : wUnit1.shift_heavy_mol 1 2 3 = Except.ok (wShifted, wUnit1) := by
    norm_num [StructUnit.shift_heavy_mol, wUnit1, wHM, wShifted, shiftConf,
      List.range_succ]
  exact ⟨h1,
    shift_heavy_mol_frame wUnit1 1 2 3 wShifted wShifted wUnit1 wUnit1 h1 h1⟩

/-! ## The assembled molecule (`Cage`) and the construction cache -/

/-- The values a `Cage` attribute can hold in the model:
`testing_init` stores its (string) arguments directly, while
`std_init` stores a building-block unit, a linker unit, or a topology
instance bound to the cage.  Python `==` on strings is value
equality; on `BuildingBlock`, `Linker` and topology instances —
classes that define no `__eq__` and are not cached — it is object
identity, and every `std_init` builds fresh objects.  The `oid` field
records that object identity (allocated fresh per construction), so
the derived equality of `CageVal` is exactly Python `==`: two values
from distinct constructions are unequal even when built from the same
source file. -/
inductive CageVal where
  | str (s : String)
  | bbUnit (file : String) (oid : Nat)
  | lkUnit (file : String) (oid : Nat)
  | topApplied (top : String) (oid : Nat)
  deriving DecidableEq, Repr

/-- The attribute record of a `Cage` instance: `none` means the
attribute was never assigned on the Python object. -/
structure CageObj where
  bb : Option CageVal
  lk : Option CageVal
  topology : Option CageVal
  fitness : Option ℚ
  prist_mol_file : Option String
  heavy_mol_file : Option String
  deriving DecidableEq, Repr

/-- A freshly allocated instance, before `__init__` assigns anything. -/
def CageObj.empty : CageObj := ⟨none, none, none, none, none, none⟩

/-- Embeds `Cage.testing_init` (source lines 621-624): assigns the
three given placeholder values to `bb`, `lk` and `topology`. -/
def Cage.testing_init (self : CageObj) (bb_str lk_str topology_str : String) :
    CageObj :=
  { self with bb := some (.str bb_str), lk := some (.str lk_str),
              topology := some (.str topology_str) }

/-- Embeds `Cage.std_init` (source lines 587-597): build the
building-block and linker units, instantiate the topology on the
cage, record the pristine file name and the heavy file name
(`splitext` plus the `HEAVY` marker, lines 593-595), then run the
external `topology.build_cage()` step (a call into the external
topology collaborator, which assigns none of the attributes modelled
here).  `alloc` supplies fresh Python object identities for the three
objects freshly constructed by this call. -/
def Cage.std_init (self : CageObj)
    (bb_file lk_file topology prist_mol_file : String) (alloc : Nat) :
    CageObj :=
  { self with
      bb := some (.bbUnit bb_file alloc),
      lk := some (.lkUnit lk_file (alloc + 1)),
      topology := some (.topApplied topology (alloc + 2)),
      prist_mol_file := some prist_mol_file,
      heavy_mol_file := some (String.intercalate "_"
        [(splitext prist_mol_file).1, "HEAVY", (splitext prist_mol_file).2]) }

/-- Embeds `Cage.__init__` (source lines 581-585): two independent
`if` statements dispatch on the number of positional arguments; an
argument count other than 3 or 4 runs neither initializer, and no
branch raises, so the function is total.  Construction arguments are
modelled as strings; `alloc` supplies fresh object identities for
anything `std_init` constructs. -/
def Cage.init (args : List String) (alloc : Nat) : CageObj :=
  let o := CageObj.empty
  let o := if args.length = 3 then
      Cage.testing_init o (args.getD 0 "") (args.getD 1 "") (args.getD 2 "")
    else o
  let o := if args.length = 4 then
      Cage.std_init o (args.getD 0 "") (args.getD 1 "") (args.getD 2 "")
        (args.getD 3 "") alloc
    else o
  o

/-- Python attribute access: raises `AttributeError` when the
attribute was never assigned. -/
def getAttr {α : Type} (a : Option α) (attr : String) : Except String α :=
  match a with
  | some v => .ok v
  | none => .error ("AttributeError: " ++ attr)

/-- The state of the `Cached` metaclass's weak-value dictionary for
the `Cage` class, together with the allocation of Python object
identities: `cache` maps argument tuples to the identity of the
object constructed for them, `heap` maps the identities of live
objects to their attribute records, and `nextId` supplies fresh
identities. -/
structure CacheState where
  cache : List (List String × Nat)
  heap : List (Nat × CageObj)
  nextId : Nat
  deriving DecidableEq, Repr

/-- First-match association lookup, the dictionary lookup semantics of
`self.__cache[args]`. -/
def lookupC : List (List String × Nat) → List String → Option Nat
  | [], _ => none
  | (k, v) :: rest, key => if key = k then some v else lookupC rest key

/-- Lookup of a live object by identity. -/
def lookupH : List (Nat × CageObj) → Nat → Option CageObj
  | [], _ => none
  | (k, v) :: rest, key => if key = k then some v else lookupH rest key

/-- Embeds `Cached.__call__` (source lines 27-33) for the `Cage`
class: if the argument tuple is a key of the weak-value dictionary,
return the object it maps to; otherwise run the construction
(`super().__call__(*args)`: allocate a fresh object and run
`Cage.__init__`), register the object under the argument tuple, and
return it.  The returned `Nat` is the object's identity. -/
def Cached.call (args : List String) (s : CacheState) : Nat × CacheState :=
  match lookupC s.cache args with
  | some oid => (oid, s)
  | none =>
      let oid := s.nextId
      let obj := Cage.init args (3 * s.nextId)
      (oid, ⟨(args, oid) :: s.cache, (oid, obj) :: s.heap, s.nextId + 1⟩)

/-- Models a garbage collection against the weak-value dictionary
(`weakref.WeakValueDictionary`, source line 25): entries whose object
is no longer referenced from anywhere are evicted; `live` lists the
object identities still referenced. -/
def collect (live : List Nat) (s : CacheState) : CacheState :=
  { s with
      cache := s.cache.filter (fun p => decide (p.2 ∈ live)),
      heap := s.heap.filter (fun p => decide (p.1 ∈ live)) }

theorem lookupC_filter_live (live : List Nat) :
    ∀ (l : List (List String × Nat)) (k : List String) (v : Nat),
      lookupC l k = some v → v ∈ live →
      lookupC (l.filter (fun p => decide (p.2 ∈ live))) k = some v := by
  intro l
  induction l with
  | nil => intro k v h _; cases h
  | cons p rest ih =>
    obtain ⟨k', v'⟩ := p
    intro k v h hv
    by_cases hk : k = k'
    · have hvv : v' = v := by simpa [lookupC, hk] using h
      subst hvv
      simp only [List.filter_cons, decide_eq_true hv]
      simp [lookupC, hk]
    · have h' : lookupC rest k = some v := by simpa [lookupC, hk] using h
      by_cases hp : v' ∈ live
      · simp only [List.filter_cons, decide_eq_true hp]
        simpa [lookupC, hk] using ih k v h' hv
      · have hd : decide ((k', v').2 ∈ live) = false := by simpa using hp
        simp only [List.filter_cons, hd]
        simpa using ih k v h' hv

/-! ## C1 -/

/-- C1: two construction calls of the cached `Cage` class with equal
argument tuples return the identical object (the same object
identity), provided a live reference to the first constructed object
is still held across any garbage collection that runs between the
calls. -/
theorem cached_call_identity (args₁ args₂ : List String) (s : CacheState)
    (live : List Nat) (o₁ o₂ : Nat) (s₁ s₂ : CacheState)
    (heq : args₁ = args₂)
    (h1 : Cached.call args₁ s = (o₁, s₁))
    (hlive : o₁ ∈ live)
    (h2 : Cached.call args₂ (collect live s₁) = (o₂, s₂)) :
    o₂ = o₁ := by
  subst heq
  have hmem : lookupC s₁.cache args₁ = some o₁ := by
    rw [Cached.call] at h1
    cases hc : lookupC s.cache args₁ with
    | some v =>
      rw [hc] at h1
      injection h1 with ho hs
      subst ho; subst hs
      exact hc
    | none =>
      rw [hc] at h1
      injection h1 with ho hs
      subst ho; subst hs
      simp [lookupC]
  have hmem' : lookupC (collect live s₁).cache args₁ = some o₁ :=
    lookupC_filter_live live s₁.cache args₁ o₁ hmem hlive
  rw [Cached.call, hmem'] at h2
  injection h2 with ho _
  exact ho.symm

/-- The cache state after the first witness construction. -/
def wCache1 : CacheState :=
  ⟨[(["bb1", "lk1", "top1"], 0)],
   [(0, ⟨some (.str "bb1"), some (.str "lk1"), some (.str "top1"),
         none, none, none⟩)], 1⟩

/-- C1 witness: constructing twice from the empty cache with the same
three placeholder arguments, holding the first object live, returns
identity 0 both times. -/
theorem cached_call_identity_witness :
    Cached.call ["bb1", "lk1", "top1"] ⟨[], [], 0⟩ = (0, wCache1) ∧
    (0 : Nat) ∈ [0] ∧
    Cached.call ["bb1", "lk1", "top1"] (collect [0] wCache1) = (0, wCache1) ∧
    (0 : Nat) = 0 :=
  ⟨rfl, by decide, rfl,
    cached_call_identity ["bb1", "lk1", "top1"] ["bb1", "lk1", "top1"]
      ⟨[], [], 0⟩ [0] 0 0 wCache1 wCache1 rfl rfl (by decide) rfl⟩

/-! ## C5 -/

/-- Modelled from the spec: the rich-comparison operators of the
assembled molecule class are not among these sources (the test
`test_comparison` exercises them on `MacroMolecule`, whose definition
is not in `src/`; the `Cage` class in `src/` defines none).  Per the
spec, "ordering for molecules is defined purely by comparing fitness
values", erroring when `fitness` is unset on either side.  `<`. -/
def Cage.ltFitness (self other : CageObj) : Except String Bool := do
  let a ← getAttr self.fitness "fitness"
  let b ← getAttr other.fitness "fitness"
  return decide (a < b)

/-- Modelled from the spec: fitness comparison, `<=`. -/
def Cage.leFitness (self other : CageObj) : Except String Bool := do
  let a ← getAttr self.fitness "fitness"
  let b ← getAttr other.fitness "fitness"
  return decide (a ≤ b)

/-- Modelled from the spec: fitness comparison, `==`. -/
def Cage.eqFitness (self other : CageObj) : Except String Bool := do
  let a ← getAttr self.fitness "fitness"
  let b ← getAttr other.fitness "fitness"
  return decide (a = b)

/-- Modelled from the spec: fitness comparison, `>`. -/
def Cage.gtFitness (self other : CageObj) : Except String Bool := do
  let a ← getAttr self.fitness "fitness"
  let b ← getAttr other.fitness "fitness"
  return decide (b < a)

/-- Modelled from the spec: fitness comparison, `>=`. -/
def Cage.geFitness (self other : CageObj) : Except String Bool := do
  let a ← getAttr self.fitness "fitness"
  let b ← getAttr other.fitness "fitness"
  return decide (b ≤ a)

/-- A molecule with fitness 1. -/
def wCageM1 : CageObj :=
  { Cage.testing_init CageObj.empty "a" "a" "nsA" with fitness := some 1 }

/-- A second molecule with fitness 1. -/
def wCageM2 : CageObj :=
  { Cage.testing_init CageObj.empty "b" "b" "nsB" with fitness := some 1 }

/-- A molecule with fitness 2. -/
def wCageM3 : CageObj :=
  { Cage.testing_init CageObj.empty "c" "c" "nsC" with fitness := some 2 }

/-- C6: for molecules with fitness 1, 1 and 2, ordering compares only
the fitness values: not (m1 < m2), m1 <= m2, m1 == m2, m3 > m2 and
m3 >= m1 all hold. -/
theorem cage_ordering_by_fitness :
    Cage.ltFitness wCageM1 wCageM2 = .ok false ∧
    Cage.leFitness wCageM1 wCageM2 = .ok true ∧
    Cage.eqFitness wCageM1 wCageM2 = .ok true ∧
    Cage.gtFitness wCageM3 wCageM2 = .ok true ∧
    Cage.geFitness wCageM3 wCageM1 = .ok true := by
  refine ⟨?_, ?_, ?_, ?_, ?_⟩ <;>
    norm_num [Cage.ltFitness, Cage.leFitness, Cage.eqFitness,
      Cage.gtFitness, Cage.geFitness, getAttr, wCageM1, wCageM2, wCageM3,
      Cage.testing_init, CageObj.empty, Bind.bind, Except.bind,
      Pure.pure, Except.pure]

/-! ## C10 -/

/-- C10: constructing a `Cage` with an argument count other than 3
or 4 runs neither initializer and raises no error (`Cage.init` is a
total function with no error outcome): the returned object has every
attribute unset, and it is nevertheless registered in the cache under
that argument tuple, with the empty attribute record on the heap. -/
theorem cage_init_wrong_arity (args : List String) (alloc : Nat)
    (s : CacheState)
    (h3 : args.length ≠ 3) (h4 : args.length ≠ 4)
    (hfresh : lookupC s.cache args = none) :
    Cage.init args alloc = CageObj.empty ∧
    lookupC (Cached.call args s).2.cache args = some (Cached.call args s).1 ∧
    lookupH (Cached.call args s).2.heap (Cached.call args s).1 =
      some CageObj.empty := by
  have hinit : ∀ a : Nat, Cage.init args a = CageObj.empty := by
    intro a
    simp [Cage.init, h3, h4]
  refine ⟨hinit alloc, ?_, ?_⟩
  · simp [Cached.call, hfresh, lookupC]
  · simp [Cached.call, hfresh, lookupH, hinit]

/-- C10 witness: a single-argument construction from the empty
cache. -/
theorem cage_init_wrong_arity_witness :
    (["a"].length ≠ 3 ∧ ["a"].length ≠ 4 ∧
      lookupC (CacheState.mk [] [] 0).cache ["a"] = none) ∧
    (Cage.init ["a"] 0 = CageObj.empty ∧
     lookupC (Cached.call ["a"] ⟨[], [], 0⟩).2.cache ["a"] =
       some (Cached.call ["a"] ⟨[], [], 0⟩).1 ∧
     lookupH (Cached.call ["a"] ⟨[], [], 0⟩).2.heap
         (Cached.call ["a"] ⟨[], [], 0⟩).1 =
       some CageObj.empty) :=
  ⟨⟨by decide, by decide, rfl⟩,
    cage_init_wrong_arity ["a"] 0 ⟨[], [], 0⟩ (by decide) (by decide) rfl⟩
